import Mathlib

/-!
Verification development for the free-games bot (`src/bot.py`).

The Python source is shallowly embedded: pure helpers become Lean functions,
the mutable TTL cache and the persisted subscriber document become explicit
state values threaded through the operations, wall-clock instants become `Int`
seconds, and the network is abstracted as an explicit parameter (the parsed
upstream payload) together with a `Bool` flag recording whether a network
request was issued.
-/

/-! ## Python string primitives

Character-level models of the `str` operations the source uses.  All inputs
appearing in this development are ASCII, so the ASCII case rules coincide with
Python's unicode ones.
-/

/-- Model of Python `str.lower` on one character (ASCII case fold). -/
def lowerChar (c : Char) : Char :=
  if 'A' ≤ c ∧ c ≤ 'Z' then Char.ofNat (c.toNat + 32) else c

/-- Model of Python `str.lower` (ASCII). -/
def lowerStr (s : String) : String := ⟨s.data.map lowerChar⟩

/-- Bool test that `p` begins the list `l`, used to model `str.startswith`. -/
def strStartsC : List Char → List Char → Bool
  | [], _ => true
  | _ :: _, [] => false
  | p :: ps, c :: cs => p == c && strStartsC ps cs

/-- Model of Python `s.startswith(p)`. -/
def strStarts (p s : String) : Bool := strStartsC p.data s.data

/-- Model of Python `s.endswith(p)`. -/
def strEnds (p s : String) : Bool := strStartsC p.data.reverse s.data.reverse

/-- Bool test that `n` occurs contiguously in `h`; models Python `n in h`. -/
def hasSubC (n : List Char) : List Char → Bool
  | [] => n.isEmpty
  | c :: t => strStartsC n (c :: t) || hasSubC n t

/-- Model of Python substring containment `n in h`. -/
def strHas (n h : String) : Bool := hasSubC n.data h.data

/-- Whitespace as stripped by Python `str.strip()` (ASCII subset). -/
def isPySpace (c : Char) : Bool :=
  c == ' ' || c == '\t' || c == '\n' || c == '\r' || c.toNat == 11 || c.toNat == 12

/-- Model of Python `str.strip()`. -/
def pyStrip (s : String) : String :=
  ⟨((s.data.dropWhile isPySpace).reverse.dropWhile isPySpace).reverse⟩

/-- Model of Python `str.lstrip("/")`. -/
def pyLstripSlash (s : String) : String := ⟨s.data.dropWhile (· == '/')⟩

/-- Model of Python `s.replace("Z", "+00:00")` (every occurrence expanded). -/
def zRepChars : List Char → List Char
  | [] => []
  | c :: t =>
    if c == 'Z' then '+' :: '0' :: '0' :: ':' :: '0' :: '0' :: zRepChars t
    else c :: zRepChars t

/-- Model of `str.replace("Z", "+00:00")` on strings. -/
def zReplace (s : String) : String := ⟨zRepChars s.data⟩

/-- Python truthiness of an optional string: present and non-empty. -/
def optTruthy : Option String → Bool
  | none => false
  | some s => s ≠ ""

/-! ## Aware datetimes

`datetime.fromisoformat` / `isoformat` / comparison, for the offset-aware
canonical subset `YYYY-MM-DDTHH:MM:SS±HH:MM` reached by the source after its
`replace("Z", "+00:00")` normalisation (the upstream contract Z-normalises all
timestamps).  Other Python-accepted variants (naive datetimes, fractional
seconds, date-only forms) are outside the embedding's domain and are mapped to
parse failure.  Aware datetimes compare by their absolute instant.
-/

/-- A parsed, offset-aware datetime: calendar fields plus UTC offset minutes. -/
structure PyDateTime where
  year : Nat
  month : Nat
  day : Nat
  hour : Nat
  minute : Nat
  sec : Nat
  offMin : Int
deriving DecidableEq, Repr

/-- Gregorian leap-year rule. -/
def isLeap (y : Nat) : Bool := y % 4 == 0 && (y % 100 != 0 || y % 400 == 0)

/-- Days in a month of the proleptic Gregorian calendar. -/
def daysInMonth (y m : Nat) : Nat :=
  if m == 2 then (if isLeap y then 29 else 28)
  else if m == 4 || m == 6 || m == 9 || m == 11 then 30
  else 31

/-- Day count of a civil date, measured from 0000-03-01 (era algorithm). -/
def daysFromCivil (y m d : Nat) : Nat :=
  let y2 := if m ≤ 2 then y - 1 else y
  let era := y2 / 400
  let yoe := y2 % 400
  let mp := if m > 2 then m - 3 else m + 9
  let doy := (153 * mp + 2) / 5 + (d - 1)
  let doe := yoe * 365 + yoe / 4 - yoe / 100 + doy
  era * 146097 + doe

/-- Absolute instant of an aware datetime, in seconds (UTC), as compared by
Python's aware-datetime comparison operators. -/
def instantOf (dt : PyDateTime) : Int :=
  ((daysFromCivil dt.year dt.month dt.day * 86400
      + dt.hour * 3600 + dt.minute * 60 + dt.sec : Nat) : Int) - dt.offMin * 60

/-- Read one decimal digit. -/
def digVal (c : Char) : Option Nat :=
  if '0' ≤ c ∧ c ≤ '9' then some (c.toNat - 48) else none

/-- Read two decimal digits. -/
def p2 : List Char → Option (Nat × List Char)
  | a :: b :: t =>
    match digVal a, digVal b with
    | some x, some y => some (x * 10 + y, t)
    | _, _ => none
  | _ => none

/-- Read four decimal digits. -/
def p4 : List Char → Option (Nat × List Char)
  | a :: b :: c :: d :: t =>
    match digVal a, digVal b, digVal c, digVal d with
    | some w, some x, some y, some z => some (w * 1000 + x * 100 + y * 10 + z, t)
    | _, _, _, _ => none
  | _ => none

/-- Consume one expected character. -/
def expectCh (c : Char) : List Char → Option (List Char)
  | x :: t => if x == c then some t else none
  | [] => none

/-- Model of `datetime.fromisoformat` on the offset-aware canonical subset
`YYYY-MM-DDTHH:MM:SS±HH:MM` (see the section comment for the domain).  Returns
`none` where Python raises `ValueError` (and also on the Python-parseable
variants excluded from the domain). -/
def parseSign : List Char → Option (Int × List Char)
  | '+' :: t => some (1, t)
  | '-' :: t => some (-1, t)
  | _ => none

/-- Range checks performed by `datetime.fromisoformat` on the parsed fields. -/
def fieldsOk (y mo d h mi se oh om : Nat) : Bool :=
  1 ≤ y && 1 ≤ mo && mo ≤ 12 && 1 ≤ d && d ≤ daysInMonth y mo
    && h ≤ 23 && mi ≤ 59 && se ≤ 59 && oh ≤ 23 && om ≤ 59

def parseAwareChars (l : List Char) : Option PyDateTime :=
  match p4 l with
  | none => none
  | some (y, l) =>
  match expectCh '-' l with
  | none => none
  | some l =>
  match p2 l with
  | none => none
  | some (mo, l) =>
  match expectCh '-' l with
  | none => none
  | some l =>
  match p2 l with
  | none => none
  | some (d, l) =>
  match expectCh 'T' l with
  | none => none
  | some l =>
  match p2 l with
  | none => none
  | some (h, l) =>
  match expectCh ':' l with
  | none => none
  | some l =>
  match p2 l with
  | none => none
  | some (mi, l) =>
  match expectCh ':' l with
  | none => none
  | some l =>
  match p2 l with
  | none => none
  | some (se, l) =>
  match parseSign l with
  | none => none
  | some (sgn, l) =>
  match p2 l with
  | none => none
  | some (oh, l) =>
  match expectCh ':' l with
  | none => none
  | some l =>
  match p2 l with
  | none => none
  | some (om, l) =>
  if l.isEmpty && fieldsOk y mo d h mi se oh om then
    some ⟨y, mo, d, h, mi, se, sgn * (oh * 60 + om)⟩
  else none

def parseAware (s : String) : Option PyDateTime := parseAwareChars s.data

/-- Zero-padded two-digit decimal rendering. -/
def pad2 (n : Nat) : String := if n < 10 then "0" ++ toString n else toString n

/-- Zero-padded four-digit decimal rendering. -/
def pad4 (n : Nat) : String :=
  if n < 10 then "000" ++ toString n
  else if n < 100 then "00" ++ toString n
  else if n < 1000 then "0" ++ toString n
  else toString n

/-- Model of `datetime.isoformat()` for an aware datetime with whole seconds:
`YYYY-MM-DDTHH:MM:SS±HH:MM`. -/
def renderIso (dt : PyDateTime) : String :=
  pad4 dt.year ++ "-" ++ pad2 dt.month ++ "-" ++ pad2 dt.day ++ "T"
    ++ pad2 dt.hour ++ ":" ++ pad2 dt.minute ++ ":" ++ pad2 dt.sec
    ++ (if dt.offMin < 0 then "-" else "+")
    ++ pad2 (dt.offMin.natAbs / 60) ++ ":" ++ pad2 (dt.offMin.natAbs % 60)

theorem parseAware_roundtrip_check :
    (parseAware (zReplace "2025-01-01T00:00:00Z")).map renderIso
      = some "2025-01-01T00:00:00+00:00" := by decide

theorem parseAware_rejects_bad_month : parseAware "2025-13-01T00:00:00+00:00" = none := by
  decide

/-! ## Association-list dictionaries

Python `dict`s (string keys, insertion-ordered, unique keys) are modelled as
association lists.  `dictInsert` overwrites in place when the key is present
and appends otherwise, matching `d[k] = v`; `dictErase` removes the binding,
matching `d.pop(k)` (keys of a Python dict are unique, so removing every
occurrence agrees with removing the one binding). -/

def dictLookup {V : Type} : List (String × V) → String → Option V
  | [], _ => none
  | (k, v) :: t, key => if k = key then some v else dictLookup t key

def dictInsert {V : Type} : List (String × V) → String → V → List (String × V)
  | [], key, v => [(key, v)]
  | (k, w) :: t, key, v =>
    if k = key then (key, v) :: t else (k, w) :: dictInsert t key v

def dictErase {V : Type} : List (String × V) → String → List (String × V)
  | [], _ => []
  | (k, w) :: t, key => if k = key then dictErase t key else (k, w) :: dictErase t key

/-- Python `key in d`. -/
def dictHasKey {V : Type} (d : List (String × V)) (key : String) : Bool :=
  (dictLookup d key).isSome

/-- Number of bindings carried for `key` (for well-formed dicts this is 0/1). -/
def dictCountKey {V : Type} (d : List (String × V)) (key : String) : Nat :=
  (d.filter (fun p => p.1 = key)).length

/-! ## Catalog data model

`CatalogElement` models one element of `data.Catalog.searchStore.elements`
after JSON parsing, restricted to the fields the embedded operations read.
Absent JSON keys are `none` / `[]`. -/

/-- One `{startDate, endDate}` window from the doubly nested
`promotions.promotionalOffers` / `upcomingPromotionalOffers` lists. -/
structure PromoWindow where
  startDate : Option String
  endDate : Option String
deriving DecidableEq, Repr

/-- One outer entry of the doubly nested promotion lists: an object carrying an
inner `promotionalOffers` list. -/
structure OfferBlock where
  promotionalOffers : List PromoWindow
deriving DecidableEq, Repr

/-- The `promotions` object of a catalog element. -/
structure Promotions where
  promotionalOffers : List OfferBlock
  upcomingPromotionalOffers : List OfferBlock
deriving DecidableEq, Repr

/-- One `{pageType, pageSlug}` store mapping. -/
structure StoreMapping where
  pageType : Option String
  pageSlug : Option String
deriving DecidableEq, Repr

/-- The `catalogNs` object (only its `mappings` list is read). -/
structure CatalogNs where
  mappings : List StoreMapping
deriving DecidableEq, Repr

/-- One nested line item (only its `id` is read, by `get_offer_id`). -/
structure LineItem where
  id : Option String
deriving DecidableEq, Repr

/-- A catalog element, restricted to the fields the embedded code reads. -/
structure CatalogElement where
  title : Option String
  id : Option String
  items : List LineItem
  promotions : Option Promotions
  catalogNs : Option CatalogNs
  offerMappings : List StoreMapping
  productSlug : Option String
  urlSlug : Option String
deriving DecidableEq, Repr

/-- `get_offer_id`: the element's own `id`, else the `id` of its first line
item, else `None` (truthiness checks as in the source). -/
def getOfferId (el : CatalogElement) : Option String :=
  if optTruthy el.id then el.id
  else
    match el.items.head? with
    | some li => if optTruthy li.id then li.id else none
    | none => none

/-! ## Window classification (`fetch_free_games`, lines 134-159)

The per-window `try` block parses `startDate` / `endDate`; if either present
string fails to parse, the exception handler sets **both** bounds to `None`. -/

/-- One bound as computed inside the `try` block: `none` = the parse raised
(`except` case), `some none` = the field was absent/empty so no parse was
attempted, `some (some dt)` = parsed. -/
def parseBound : Option String → Option (Option PyDateTime)
  | none => some none
  | some s =>
    if s = "" then some none
    else
      match parseAware (zReplace s) with
      | some dt => some (some dt)
      | none => none

/-- The `(start, end)` pair after the `try/except`: a parse failure on either
field leaves both bounds absent. -/
def windowBounds (w : PromoWindow) : Option PyDateTime × Option PyDateTime :=
  match parseBound w.startDate, parseBound w.endDate with
  | some s, some e => (s, e)
  | _, _ => (none, none)

/-- `(start is None or start <= now) and (end is None or now < end)`. -/
def windowActiveB (now : Int) (w : PromoWindow) : Bool :=
  let (s, e) := windowBounds w
  (match s with
   | none => true
   | some dt => instantOf dt ≤ now)
  &&
  (match e with
   | none => true
   | some dt => now < instantOf dt)

/-- `promotions.promotionalOffers` with the source's `or {}` / `or []`
defaults. -/
def currentBlocks (el : CatalogElement) : List OfferBlock :=
  match el.promotions with
  | none => []
  | some p => p.promotionalOffers

/-- `promotions.upcomingPromotionalOffers` with the `or` defaults. -/
def upcomingBlocks (el : CatalogElement) : List OfferBlock :=
  match el.promotions with
  | none => []
  | some p => p.upcomingPromotionalOffers

/-- The body of the `for el in elements` loop of `fetch_free_games`: skip when
`promotionalOffers` is empty, else keep the element iff some inner window is
active now (the nested flag/`break` computation of `is_active`). -/
def isActiveEl (now : Int) (el : CatalogElement) : Bool :=
  let cur := currentBlocks el
  if cur.isEmpty then false
  else cur.any (fun b => b.promotionalOffers.any (windowActiveB now))

/-- The pure classification step of `fetch_free_games`: the elements that carry
an active promotional window at `now`, in input order. -/
def freeNowFilter (els : List CatalogElement) (now : Int) : List CatalogElement :=
  els.filter (isActiveEl now)

/-! ## TTL cache (`FREE_GAMES_CACHE`, `_get_cached`, `_set_cached`)

The module-level dict becomes an explicit association list from the composed
key `f"{locale}|{country}|{kind}"` to entries; `datetime.now` becomes an `Int`
parameter in seconds (`total_seconds()` sub-second resolution is immaterial to
the 600-second comparison at whole-second granularity). -/

/-- `{"at": datetime, "items": list}` (field `at` renamed: keyword). -/
structure CacheEntry where
  fetchedAt : Int
  items : List CatalogElement
deriving DecidableEq, Repr

abbrev Cache := List (String × CacheEntry)

/-- `CACHE_TTL_SECONDS`. -/
def CACHE_TTL_SECONDS : Int := 600

/-- `_cache_key(locale, country, kind)`. -/
def cacheKey (locale country kind : String) : String :=
  locale ++ "|" ++ country ++ "|" ++ kind

/-- `_get_cached`: returns the items and the cache after the lazy eviction
(the entry is popped when `now - at > 600`). -/
def getCached (c : Cache) (now : Int) (locale country kind : String) :
    Option (List CatalogElement) × Cache :=
  match dictLookup c (cacheKey locale country kind) with
  | none => (none, c)
  | some e =>
    if now - e.fetchedAt > CACHE_TTL_SECONDS then
      (none, dictErase c (cacheKey locale country kind))
    else (some e.items, c)

/-- `_set_cached`: unconditional overwrite. -/
def setCached (c : Cache) (now : Int) (locale country kind : String)
    (items : List CatalogElement) : Cache :=
  dictInsert c (cacheKey locale country kind) ⟨now, items⟩

/-- Result of one stateful fetch: the returned items, the cache afterwards,
and whether an upstream network request was issued. -/
structure FetchOutcome where
  items : List CatalogElement
  cache : Cache
  network : Bool
deriving Repr

/-- `fetch_free_games` with the cache threaded explicitly; `upstream` is the
element list the endpoint would deliver, consulted only on a cache miss. -/
def fetchFreeGamesSt (c : Cache) (now : Int) (locale country : String)
    (upstream : List CatalogElement) : FetchOutcome :=
  match getCached c now locale country "current" with
  | (some items, c1) => ⟨items, c1, false⟩
  | (none, c1) =>
    let res := freeNowFilter upstream now
    ⟨res, setCached c1 now locale country "current" res, true⟩

/-! ## Upcoming games (`fetch_upcoming_games`, lines 185-213) -/

/-- The `starts_at` accumulator loop: the earliest strictly-future parsed
start over all upcoming windows (`start and start > now`, kept when smaller
than the best so far; a failed start parse is caught and skipped). -/
def upStartOf (now : Int) (el : CatalogElement) : Option PyDateTime :=
  (upcomingBlocks el).foldl
    (fun acc b =>
      b.promotionalOffers.foldl
        (fun acc w =>
          let st : Option PyDateTime :=
            match parseBound w.startDate with
            | some v => v
            | none => none
          match st with
          | none => acc
          | some dt =>
            if now < instantOf dt then
              match acc with
              | none => some dt
              | some best => if instantOf dt < instantOf best then some dt else acc
            else acc)
        acc)
    none

/-- An element of the `upcoming` result list: the element together with the
`__upcomingStart` annotation written into it. -/
structure UpcomingEl where
  el : CatalogElement
  upcomingStart : Option String
deriving DecidableEq, Repr

/-- The sort key `e.get("__upcomingStart") or ""`. -/
def upKey (u : UpcomingEl) : String :=
  match u.upcomingStart with
  | none => ""
  | some s => s

/-- The filter/annotate loop of `fetch_upcoming_games`: skip elements without
`upcomingPromotionalOffers`; keep those with a strictly-future start, annotated
with `starts_at.isoformat()`. -/
def annotateUpcoming (els : List CatalogElement) (now : Int) : List UpcomingEl :=
  els.filterMap (fun el =>
    if (upcomingBlocks el).isEmpty then none
    else
      match upStartOf now el with
      | some dt => some ⟨el, some (renderIso dt)⟩
      | none => none)

/-- Lexicographic `≤` on code points, the order Python uses to compare the
string sort keys (`str` comparison).  Written on character lists so that it
evaluates by kernel reduction. -/
def lexLe : List Char → List Char → Bool
  | [], _ => true
  | _ :: _, [] => false
  | x :: xs, y :: ys => if x = y then lexLe xs ys else decide (x < y)

/-- Python string `<=` on the sort keys. -/
def strLeB (a b : String) : Bool := lexLe a.data b.data

/-- Stable insertion of `a` into `l`, before the first element whose key is
not smaller. -/
def insertByKey {α : Type} (key : α → String) (a : α) : List α → List α
  | [] => [a]
  | b :: l => if strLeB (key a) (key b) then a :: b :: l else b :: insertByKey key a l

/-- Stable ascending sort by a string key.  `list.sort(key=...)` is a stable
ascending sort; stable sorts under one total preorder agree on their output,
so insertion sort reproduces it exactly. -/
def sortByKey {α : Type} (key : α → String) : List α → List α
  | [] => []
  | a :: l => insertByKey key a (sortByKey key l)

/-- `fetch_upcoming_games`'s pure classification step: annotate, then sort by
the `__upcomingStart` string (`or ""`). -/
def fetchUpcomingPure (els : List CatalogElement) (now : Int) : List UpcomingEl :=
  sortByKey upKey (annotateUpcoming els now)

/-- `fetch_upcoming_games` with the cache threaded explicitly.  The cached
items are the annotated elements; to reuse one cache type the annotation is
carried separately, so this wrapper stores the plain elements of the result
(the cache-behaviour claims are settled on `fetchFreeGamesSt`, whose lines
165-168/211-213 this function repeats verbatim). -/
def fetchUpcomingSt (c : Cache) (now : Int) (locale country : String)
    (upstream : List CatalogElement) : FetchOutcome :=
  match getCached c now locale country "upcoming" with
  | (some items, c1) => ⟨items, c1, false⟩
  | (none, c1) =>
    let res := (fetchUpcomingPure upstream now).map (fun u => u.el)
    ⟨res, setCached c1 now locale country "upcoming" res, true⟩

/-! ## Subscription store (`subscribers.json` document)

Each operation is a read-modify-write of the single persisted JSON document;
`load_json`/`save_json` are atomic per mutation in this design, so the
operations become functions from document to document.  An operation that does
not call `save_json` leaves the persisted document unchanged (its in-memory
`setdefault` insertions are discarded). -/

/-- One per-offer subscription record, as stored by `subscribe_to_offer`. -/
structure OfferSubRec where
  title : String
  pageSlug : String
  notified : Bool
deriving DecidableEq, Repr

/-- The persisted document: `{"chat_ids": [...], "users": {...},
"offer_subs": {...}}`. -/
structure BotDoc where
  chat_ids : List Int
  users : List (String × List (String × String))
  offer_subs : List (String × List (String × OfferSubRec))
deriving DecidableEq, Repr

/-- The per-user subscription dict `offer_subs[str(chat_id)]` (`{}` when
absent). -/
def userSubsOf (chatId : Int) (d : BotDoc) : List (String × OfferSubRec) :=
  match dictLookup d.offer_subs (toString chatId) with
  | some subs => subs
  | none => []

/-- `is_subscribed_to_offer`: `offer_id in data.get("offer_subs", {}).get(str(chat_id), {})`. -/
def isSubscribedToOffer (chatId : Int) (offerId : String) (d : BotDoc) : Bool :=
  dictHasKey (userSubsOf chatId d) offerId

/-- `subscribe_to_offer`: upsert of
`{"title": title, "pageSlug": page_slug or "", "notified": False}` under
`offer_subs[str(chat_id)][offer_id]`, then save. -/
def subscribeToOffer (chatId : Int) (offerId title : String)
    (pageSlug : Option String) (d : BotDoc) : BotDoc :=
  let subs := userSubsOf chatId d
  let subs1 := dictInsert subs offerId
    ⟨title, (match pageSlug with | some s => s | none => ""), false⟩
  { d with offer_subs := dictInsert d.offer_subs (toString chatId) subs1 }

/-- `unsubscribe_from_offer`: pop the record and save when present; when the
record is absent nothing is saved, so the persisted document is unchanged. -/
def unsubscribeFromOffer (chatId : Int) (offerId : String) (d : BotDoc) : BotDoc :=
  let subs := userSubsOf chatId d
  if dictHasKey subs offerId then
    let subs1 := dictErase subs offerId
    { d with offer_subs := dictInsert d.offer_subs (toString chatId) subs1 }
  else d

/-! ## Notification scheduler (`daily_job`, lines 767-816)

Per user, one tick computes the currently-free offer ids (empty when the fetch
failed), then for each not-yet-notified subscription whose id is free attempts
delivery; `meta["notified"] = True` runs only after `send_message` returned
without raising.  Delivery success is modelled by an oracle
`deliver : String → Bool` giving each send's outcome this tick. -/

/-- The free-id set `{get_offer_id(el) for el in current if get_offer_id(el)}`
(a Python `set`; only membership is consulted, so a list suffices). -/
def freeIdsOf (current : List CatalogElement) : List String :=
  current.filterMap getOfferId

/-- The per-record step of the notification loop:
`if free_ids and oid in free_ids and not meta.get("notified")`, then on
successful delivery set `notified = True`; a raised send leaves the record
untouched. -/
def stepSub (current : List CatalogElement) (deliver : String → Bool)
    (p : String × OfferSubRec) : String × OfferSubRec :=
  let freeIds := freeIdsOf current
  if ¬freeIds.isEmpty ∧ p.1 ∈ freeIds ∧ ¬p.2.notified ∧ deliver p.1 then
    (p.1, { p.2 with notified := true })
  else p

/-- One scheduler tick restricted to one user's subscription dict (the loop
`for oid, meta in user_offer_subs.items()`; the updated dict is what
`save_json` persists when any send succeeded, and equals the input when none
did). -/
def tickUser (current : List CatalogElement) (deliver : String → Bool)
    (subs : List (String × OfferSubRec)) : List (String × OfferSubRec) :=
  subs.map (stepSub current deliver)

/-- A run of successive daily ticks, each with its own fetched free list and
its own delivery outcomes. -/
def runTicks (ticks : List (List CatalogElement × (String → Bool)))
    (subs : List (String × OfferSubRec)) : List (String × OfferSubRec) :=
  ticks.foldl (fun s t => tickUser t.1 t.2 s) subs

/-! ## Store URLs (`build_store_url`, lines 235-268) -/

/-- `slug_to_url`: strip leading `/`, keep path-qualified slugs
(`p/`, `bundles/`, `store/`) as-is, prefix `p/` otherwise. -/
def slugToUrl (slug : String) (locale : String) : String :=
  let s := pyLstripSlash slug
  if strStarts "p/" s || strStarts "bundles/" s || strStarts "store/" s then
    "https://store.epicgames.com/" ++ locale ++ "/" ++ s
  else
    "https://store.epicgames.com/" ++ locale ++ "/p/" ++ s

/-- The `catalogNs.mappings` list with the source's `or {}` / `or []`
defaults. -/
def nsMappings (el : CatalogElement) : List StoreMapping :=
  match el.catalogNs with
  | none => []
  | some ns => ns.mappings

/-- The loop-1 test: `(m.get("pageType") or "").lower() == "producthome" and
m.get("pageSlug")`. -/
def isProductHomeMapping (m : StoreMapping) : Bool :=
  lowerStr (match m.pageType with | some t => t | none => "") = "producthome"
    && optTruthy m.pageSlug

/-- The loop-2/loop-3 test: `m.get("pageSlug")` truthy. -/
def hasPageSlug (m : StoreMapping) : Bool := optTruthy m.pageSlug

/-- `m.get("pageSlug")` coerced from the truthy option (the loops only use it
after the truthiness test). -/
def mappingSlug (m : StoreMapping) : String :=
  match m.pageSlug with | some s => s | none => ""

/-- `build_store_url`: the five slug sources in priority order, then the
storefront root. -/
def buildStoreUrl (el : CatalogElement) (locale : String) : String :=
  match (nsMappings el).find? isProductHomeMapping with
  | some m => slugToUrl (mappingSlug m) locale
  | none =>
  match (nsMappings el).find? hasPageSlug with
  | some m => slugToUrl (mappingSlug m) locale
  | none =>
  match el.offerMappings.find? hasPageSlug with
  | some m => slugToUrl (mappingSlug m) locale
  | none =>
  if optTruthy el.productSlug then
    slugToUrl (match el.productSlug with | some s => s | none => "") locale
  else if optTruthy el.urlSlug then
    slugToUrl (match el.urlSlug with | some s => s | none => "") locale
  else "https://store.epicgames.com/"

/-! ## Media resolver (`fetch_trailer_urls` / `scan_modules`, lines 484-569)

The parsed content document is an untyped JSON tree.  `scan_modules` is a
terminating structural walk; its two `nonlocal` accumulators become an
explicit pair threaded left-to-right, and `x = x or y` becomes `Option`
first-wins merging (every stored candidate is a non-empty string, so Python
truthiness coincides with `Option` presence).  Corner inputs on which the
original raises (a truthy non-string under one of the special keys, a truthy
non-dict inside `sources`, a non-dict page/document) are outside the
embedding's domain and are skipped; they are marked below. -/

inductive Json where
  | obj (fields : List (String × Json))
  | arr (items : List Json)
  | str (s : String)
  | num (n : Int)
  | bool (b : Bool)
  | null

/-- Python truthiness of a JSON value. -/
def jsonTruthy : Json → Bool
  | .str s => s ≠ ""
  | .num n => n != 0
  | .bool b => b
  | .null => false
  | .arr l => !l.isEmpty
  | .obj f => !f.isEmpty

/-- A single-quote string, built by code point (39). -/
def pyQuote : String := ⟨[Char.ofNat 39]⟩

mutual

/-- Python `repr` of a JSON value (as used by `str` on containers). -/
def pyReprJson : Json → String
  | .str s => pyQuote ++ s ++ pyQuote
  | .num n => toString n
  | .bool b => if b then "True" else "False"
  | .null => "None"
  | .arr items => "[" ++ pyReprList items ++ "]"
  | .obj fields => "\x7b" ++ pyReprFields fields ++ "\x7d"

def pyReprList : List Json → String
  | [] => ""
  | [v] => pyReprJson v
  | v :: t => pyReprJson v ++ ", " ++ pyReprList t

def pyReprFields : List (String × Json) → String
  | [] => ""
  | [(k, v)] => pyQuote ++ k ++ pyQuote ++ ": " ++ pyReprJson v
  | (k, v) :: t => pyQuote ++ k ++ pyQuote ++ ": " ++ pyReprJson v ++ ", " ++ pyReprFields t

end

/-- Python `str()` of a JSON value, as interpolated by the f-string
`f"https://youtu.be/{obj.get('id')}"`. -/
def pyStr : Json → String
  | .str s => s
  | j => pyReprJson j

/-- The accumulator pair `(direct, yt)` of `scan_modules`. -/
abbrev Found := Option String × Option String

/-- `x = x or y` on both components: an already-found value of a kind is never
overwritten. -/
def merge2 (a b : Found) : Found := (a.1 <|> b.1, a.2 <|> b.2)

/-- The direct-video test of `consider` / `pick_from_sources`:
`low.endswith((".mp4",".webm",".mov")) or ".mp4" in low`. -/
def videoLike (low : String) : Bool :=
  strEnds ".mp4" low || strEnds ".webm" low || strEnds ".mov" low || strHas ".mp4" low

/-- The YouTube test of `consider`: `"youtube.com" in low or "youtu.be" in low`. -/
def ytLike (low : String) : Bool :=
  strHas "youtube.com" low || strHas "youtu.be" low

/-- `consider(value)`: strip, lower, then record the value under each kind not
already found. -/
def considerStep (acc : Found) (value : String) : Found :=
  let v := pyStrip value
  let low := lowerStr v
  let d := if videoLike low && acc.1.isNone then some v else acc.1
  let y := if ytLike low && acc.2.isNone then some v else acc.2
  (d, y)

/-- `pick_from_sources` inner loop over one `sources` list. -/
def pickLoop : List Json → Option String
  | [] => none
  | src :: t =>
    match src with
    | .obj f =>
      let a := dictLookup f "src"
      let b := dictLookup f "url"
      let url : Option Json :=
        match a with
        | some v => if jsonTruthy v then some v else b
        | none => b
      match url with
      | some (.str u) => if videoLike (lowerStr u) then some u else pickLoop t
      | _ => pickLoop t
    | _ => pickLoop t
    -- non-dict entries: falsy ones give `{}` (skipped); truthy ones raise in
    -- the original (outside the embedding's domain)

/-- `pick_from_sources(sources)`: `None` unless the argument is a list. -/
def pickFromSources (sources : Option Json) : Option String :=
  match sources with
  | some (.arr srcs) => pickLoop srcs
  | _ => none

/-- The YouTube-field steps of the dict branch
(`if key in obj and obj[key] and not yt: consider(obj[key])`). -/
def stepYtField (fields : List (String × Json)) (key : String) (acc : Found) : Found :=
  match dictLookup fields key with
  | some v =>
    if jsonTruthy v && acc.2.isNone then
      match v with
      | .str s => considerStep acc s
      | _ => acc -- truthy non-string: `.strip()` raises in the original
    else acc
  | none => acc

/-- The `videoUrl` step (`... and not direct: consider(obj["videoUrl"])`). -/
def stepVideoUrlField (fields : List (String × Json)) (acc : Found) : Found :=
  match dictLookup fields "videoUrl" with
  | some v =>
    if jsonTruthy v && acc.1.isNone then
      match v with
      | .str s => considerStep acc s
      | _ => acc -- truthy non-string: `.strip()` raises in the original
    else acc
  | none => acc

/-- The ordered special-key handling of the dict branch of `scan_modules`,
before the recursion over values. -/
def dictSpecialSteps (fields : List (String × Json)) (acc : Found) : Found :=
  let acc :=
    match dictLookup fields "provider", dictLookup fields "id" with
    | some (.str p), some idv =>
      if p = "youtube" && jsonTruthy idv && acc.2.isNone then
        (acc.1, some ("https://youtu.be/" ++ pyStr idv))
      else acc
    | _, _ => acc
  let acc := stepYtField fields "youTubeUrl" acc
  let acc := stepYtField fields "youtubeUrl" acc
  let acc := stepVideoUrlField fields acc
  let acc :=
    match dictLookup fields "video" with
    | some (.obj vf) => (acc.1 <|> pickFromSources (dictLookup vf "sources"), acc.2)
    | _ => acc
  let acc :=
    if (dictLookup fields "sources").isSome then
      (acc.1 <|> pickFromSources (dictLookup fields "sources"), acc.2)
    else acc
  acc

mutual

/-- `scan_modules(obj)`: the recursive structural walk.  Total by structural
recursion, so the walk terminates on every finite tree-shaped document. -/
def scanJson : Json → Found
  | .obj fields => scanValues (dictSpecialSteps fields (none, none)) fields
  | .arr items => scanItems (none, none) items
  | .str s => considerStep (none, none) s
  | _ => (none, none)

/-- `for v in obj.values(): if isinstance(v, (dict, list)): ...` — only
container values are recursed into. -/
def scanValues (acc : Found) : List (String × Json) → Found
  | [] => acc
  | (_, v) :: t =>
    match v with
    | .obj f2 => scanValues (merge2 acc (scanJson (.obj f2))) t
    | .arr l2 => scanValues (merge2 acc (scanJson (.arr l2))) t
    | _ => scanValues acc t

/-- `for item in obj: ...` — every list item is recursed into. -/
def scanItems (acc : Found) : List Json → Found
  | [] => acc
  | v :: t => scanItems (merge2 acc (scanJson v)) t

end

/-- The `(page.get("_type") or page.get("type") or "").lower() == "producthome"`
test on a page's fields. -/
def pageTypeIsProductHome (f : List (String × Json)) : Bool :=
  let a : Option Json :=
    match dictLookup f "_type" with
    | some v => if jsonTruthy v then some v else none
    | none => none
  let b : Option Json :=
    match a with
    | some v => some v
    | none =>
      match dictLookup f "type" with
      | some w => if jsonTruthy w then some w else none
      | none => none
  match b with
  | some (.str s) => lowerStr s = "producthome"
  | some _ => false -- truthy non-string: `.lower()` raises in the original
  | none => false -- the chain fell through to `""`

/-- The post-fetch portion of `fetch_trailer_urls` applied to a parsed content
document: select the `productHome` pages' module lists, else the top-level
`modules`, scan them, and fall back to a global scan when both kinds are still
missing.  (A non-dict document makes the original raise at `data.get`.) -/
def resolveTrailerDoc (data : Json) : Found :=
  match data with
  | .obj df =>
    let pages : List Json :=
      match dictLookup df "pages" with
      | some (.arr l) => l
      | _ => [] -- `or []`; truthy non-list values raise on iteration upstream
    let modCands : List Json := pages.filterMap (fun page =>
      match page with
      | .obj f =>
        if pageTypeIsProductHome f then
          some (match dictLookup f "modules" with | some m => m | none => Json.null)
        else none
      | _ => none)
    let modCands : List Json :=
      if modCands.isEmpty && (dictLookup df "modules").isSome then
        [match dictLookup df "modules" with | some m => m | none => Json.null]
      else modCands
    let acc := modCands.foldl (fun acc mc => merge2 acc (scanJson mc)) (none, none)
    let acc :=
      if acc.1.isNone && acc.2.isNone then merge2 acc (scanJson data) else acc
    acc
  | _ => (none, none)

/-- The content document of the C7 scenario. -/
def scenarioDoc : Json :=
  .obj [("modules", .arr [.obj [("youTubeUrl", .str "https://youtu.be/abc123")]])]

theorem resolveTrailerDoc_scenario_check :
    resolveTrailerDoc scenarioDoc = (none, some "https://youtu.be/abc123") := by
  decide

/-! ## Helper lemmas -/

theorem dictLookup_insert_self {V : Type} (d : List (String × V)) (k : String) (v : V) :
    dictLookup (dictInsert d k v) k = some v := by
  induction d with
  | nil => simp [dictInsert, dictLookup]
  | cons p t ih =>
    obtain ⟨k1, v1⟩ := p
    by_cases h : k1 = k
    · subst h
      simp [dictInsert, dictLookup]
    · simp [dictInsert, dictLookup, h, ih]

theorem dictInsert_dictInsert_same {V : Type} (d : List (String × V)) (k : String) (v w : V) :
    dictInsert (dictInsert d k v) k w = dictInsert d k w := by
  induction d with
  | nil => simp [dictInsert]
  | cons p t ih =>
    obtain ⟨k1, v1⟩ := p
    by_cases h : k1 = k
    · subst h
      simp [dictInsert]
    · simp [dictInsert, h, ih]

theorem dictLookup_erase_self {V : Type} (d : List (String × V)) (k : String) :
    dictLookup (dictErase d k) k = none := by
  induction d with
  | nil => simp [dictErase, dictLookup]
  | cons p t ih =>
    obtain ⟨k1, v1⟩ := p
    by_cases h : k1 = k
    · subst h
      simp [dictErase, ih]
    · simp [dictErase, dictLookup, h, ih]

theorem countFilter {α : Type} [DecidableEq α] (l : List α) (a : α) (p : α → Bool) :
    List.count a (List.filter p l) = if p a then List.count a l else 0 := by
  induction l with
  | nil => simp
  | cons b t ih =>
    by_cases hb : p b
    · by_cases hab : b = a
      · subst hab
        simp [List.count_cons, hb, ih]
      · simp [List.filter_cons, hb, List.count_cons, hab, ih]
    · by_cases hab : b = a
      · subst hab
        simp [List.filter_cons, hb, List.count_cons, ih]
      · simp [List.filter_cons, hb, List.count_cons, hab, ih]

/-! ## Claim C5 -/

/-- C5: for every key, a cache lookup returns the stored items iff an entry
exists and `now - fetchedAt <= 600` seconds; otherwise a stale entry is
evicted and the lookup returns absent, so an entry whose `fetchedAt` is more
than 600 seconds in the past is never returned. -/
theorem cache_lookup_ttl (c : Cache) (now : Int) (locale country kind : String) :
    (∀ e, dictLookup c (cacheKey locale country kind) = some e →
      (now - e.fetchedAt ≤ 600 →
        getCached c now locale country kind = (some e.items, c)) ∧
      (600 < now - e.fetchedAt →
        getCached c now locale country kind
          = (none, dictErase c (cacheKey locale country kind))))
    ∧ (dictLookup c (cacheKey locale country kind) = none →
        getCached c now locale country kind = (none, c))
    ∧ (∀ items c2, getCached c now locale country kind = (some items, c2) →
        ∃ e, dictLookup c (cacheKey locale country kind) = some e ∧
          items = e.items ∧ c2 = c ∧ now - e.fetchedAt ≤ 600) := by
  refine ⟨fun e he => ⟨fun h => ?_, fun h => ?_⟩, fun h => ?_, fun items c2 h => ?_⟩
  · simp only [getCached, he, CACHE_TTL_SECONDS]
    rw [if_neg (by omega)]
  · simp only [getCached, he, CACHE_TTL_SECONDS]
    rw [if_pos (by omega)]
  · simp only [getCached, h]
  · unfold getCached at h
    cases hl : dictLookup c (cacheKey locale country kind) with
    | none =>
      rw [hl] at h
      simp at h
    | some e =>
      rw [hl] at h
      dsimp only at h
      by_cases hf : now - e.fetchedAt > CACHE_TTL_SECONDS
      · rw [if_pos hf] at h
        simp at h
      · rw [if_neg hf] at h
        simp only [Prod.mk.injEq, Option.some.injEq] at h
        simp only [CACHE_TTL_SECONDS] at hf
        exact ⟨e, rfl, h.1.symm, h.2.symm, by omega⟩

/-- C5 witness: a fresh entry (600 s old exactly) is returned unchanged. -/
theorem cache_lookup_ttl_witness :
    getCached [("en-US|US|current", (⟨1000, []⟩ : CacheEntry))] 1600 "en-US" "US" "current"
      = (some [], [("en-US|US|current", (⟨1000, []⟩ : CacheEntry))]) :=
  ((cache_lookup_ttl [("en-US|US|current", ⟨1000, []⟩)] 1600 "en-US" "US" "current").1
    ⟨1000, []⟩ (by decide)).1 (by decide)

/-! ## Claim C6 -/

theorem getCached_fresh (c : Cache) (now : Int) (locale country kind : String)
    (e : CacheEntry) (he : dictLookup c (cacheKey locale country kind) = some e)
    (h : now - e.fetchedAt ≤ 600) :
    getCached c now locale country kind = (some e.items, c) := by
  simp only [getCached, he, CACHE_TTL_SECONDS]
  rw [if_neg (by omega)]

/-- C6: two fetches of the same `(locale, country, class)` within the TTL
issue at most one upstream call; a cache hit returns the cached items with no
network call; a fresh fetch populates the cache before returning, so the
second call returns the identical result without touching the network.  Both
classes (`current` and `upcoming`) are covered. -/
theorem cache_idempotent_fetch (c : Cache) (t1 t2 : Int) (locale country : String)
    (up1 up2 : List CatalogElement) (o1 o2 p1 p2 : FetchOutcome)
    (h12 : t1 ≤ t2) (httl : t2 - t1 ≤ 600)
    (ho1 : o1 = fetchFreeGamesSt c t1 locale country up1)
    (ho2 : o2 = fetchFreeGamesSt o1.cache t2 locale country up2)
    (hp1 : p1 = fetchUpcomingSt c t1 locale country up1)
    (hp2 : p2 = fetchUpcomingSt p1.cache t2 locale country up2) :
    (¬(o1.network = true ∧ o2.network = true))
    ∧ (o1.network = true → o2.items = o1.items ∧ o2.network = false ∧ o2.cache = o1.cache)
    ∧ (o1.network = true →
        dictLookup o1.cache (cacheKey locale country "current") = some ⟨t1, o1.items⟩)
    ∧ (∀ e, dictLookup c (cacheKey locale country "current") = some e →
        t1 - e.fetchedAt ≤ 600 → o1.items = e.items ∧ o1.network = false)
    ∧ (¬(p1.network = true ∧ p2.network = true))
    ∧ (p1.network = true → p2.items = p1.items ∧ p2.network = false ∧ p2.cache = p1.cache)
    ∧ (p1.network = true →
        dictLookup p1.cache (cacheKey locale country "upcoming") = some ⟨t1, p1.items⟩)
    ∧ (∀ e, dictLookup c (cacheKey locale country "upcoming") = some e →
        t1 - e.fetchedAt ≤ 600 → p1.items = e.items ∧ p1.network = false) := by
  subst ho2
  subst ho1
  subst hp2
  subst hp1
  rcases hg1 : getCached c t1 locale country "current" with ⟨og1, cg1⟩
  rcases hu1 : getCached c t1 locale country "upcoming" with ⟨ou1, cu1⟩
  have freeCase :
      (¬((fetchFreeGamesSt c t1 locale country up1).network = true ∧
          (fetchFreeGamesSt (fetchFreeGamesSt c t1 locale country up1).cache t2 locale country
              up2).network = true))
      ∧ ((fetchFreeGamesSt c t1 locale country up1).network = true →
          (fetchFreeGamesSt (fetchFreeGamesSt c t1 locale country up1).cache t2 locale country
              up2).items = (fetchFreeGamesSt c t1 locale country up1).items
          ∧ (fetchFreeGamesSt (fetchFreeGamesSt c t1 locale country up1).cache t2 locale country
              up2).network = false
          ∧ (fetchFreeGamesSt (fetchFreeGamesSt c t1 locale country up1).cache t2 locale country
              up2).cache = (fetchFreeGamesSt c t1 locale country up1).cache)
      ∧ ((fetchFreeGamesSt c t1 locale country up1).network = true →
          dictLookup (fetchFreeGamesSt c t1 locale country up1).cache
              (cacheKey locale country "current")
            = some ⟨t1, (fetchFreeGamesSt c t1 locale country up1).items⟩)
      ∧ (∀ e, dictLookup c (cacheKey locale country "current") = some e →
          t1 - e.fetchedAt ≤ 600 →
          (fetchFreeGamesSt c t1 locale country up1).items = e.items
          ∧ (fetchFreeGamesSt c t1 locale country up1).network = false) := by
    cases og1 with
    | some items =>
      have ho1v : fetchFreeGamesSt c t1 locale country up1 = ⟨items, cg1, false⟩ := by
        simp [fetchFreeGamesSt, hg1]
      refine ⟨?_, ?_, ?_, ?_⟩
      · rw [ho1v]
        simp
      · rw [ho1v]
        simp
      · rw [ho1v]
        simp
      · intro e he hf
        have := getCached_fresh c t1 locale country "current" e he hf
        rw [this] at hg1
        simp only [Prod.mk.injEq, Option.some.injEq] at hg1
        rw [ho1v]
        simp [hg1.1]
    | none =>
      have ho1v : fetchFreeGamesSt c t1 locale country up1
          = ⟨freeNowFilter up1 t1,
             setCached cg1 t1 locale country "current" (freeNowFilter up1 t1), true⟩ := by
        simp [fetchFreeGamesSt, hg1]
      have hlk : dictLookup (setCached cg1 t1 locale country "current" (freeNowFilter up1 t1))
          (cacheKey locale country "current")
          = some ⟨t1, freeNowFilter up1 t1⟩ := dictLookup_insert_self _ _ _
      have hsecond : fetchFreeGamesSt
          (setCached cg1 t1 locale country "current" (freeNowFilter up1 t1)) t2 locale country up2
          = ⟨freeNowFilter up1 t1,
             setCached cg1 t1 locale country "current" (freeNowFilter up1 t1), false⟩ := by
        have := getCached_fresh
          (setCached cg1 t1 locale country "current" (freeNowFilter up1 t1)) t2
          locale country "current" ⟨t1, freeNowFilter up1 t1⟩ hlk
          (by show t2 - t1 ≤ 600; omega)
        simp [fetchFreeGamesSt, this]
      refine ⟨?_, ?_, ?_, ?_⟩
      · rw [ho1v]
        simp only []
        rw [hsecond]
        simp
      · rw [ho1v]
        simp only []
        rw [hsecond]
        simp
      · rw [ho1v]
        simp only []
        exact fun _ => hlk
      · intro e he hf
        have := getCached_fresh c t1 locale country "current" e he hf
        rw [this] at hg1
        simp at hg1
  have upCase :
      (¬((fetchUpcomingSt c t1 locale country up1).network = true ∧
          (fetchUpcomingSt (fetchUpcomingSt c t1 locale country up1).cache t2 locale country
              up2).network = true))
      ∧ ((fetchUpcomingSt c t1 locale country up1).network = true →
          (fetchUpcomingSt (fetchUpcomingSt c t1 locale country up1).cache t2 locale country
              up2).items = (fetchUpcomingSt c t1 locale country up1).items
          ∧ (fetchUpcomingSt (fetchUpcomingSt c t1 locale country up1).cache t2 locale country
              up2).network = false
          ∧ (fetchUpcomingSt (fetchUpcomingSt c t1 locale country up1).cache t2 locale country
              up2).cache = (fetchUpcomingSt c t1 locale country up1).cache)
      ∧ ((fetchUpcomingSt c t1 locale country up1).network = true →
          dictLookup (fetchUpcomingSt c t1 locale country up1).cache
              (cacheKey locale country "upcoming")
            = some ⟨t1, (fetchUpcomingSt c t1 locale country up1).items⟩)
      ∧ (∀ e, dictLookup c (cacheKey locale country "upcoming") = some e →
          t1 - e.fetchedAt ≤ 600 →
          (fetchUpcomingSt c t1 locale country up1).items = e.items
          ∧ (fetchUpcomingSt c t1 locale country up1).network = false) := by
    cases ou1 with
    | some items =>
      have ho1v : fetchUpcomingSt c t1 locale country up1 = ⟨items, cu1, false⟩ := by
        simp [fetchUpcomingSt, hu1]
      refine ⟨?_, ?_, ?_, ?_⟩
      · rw [ho1v]
        simp
      · rw [ho1v]
        simp
      · rw [ho1v]
        simp
      · intro e he hf
        have := getCached_fresh c t1 locale country "upcoming" e he hf
        rw [this] at hu1
        simp only [Prod.mk.injEq, Option.some.injEq] at hu1
        rw [ho1v]
        simp [hu1.1]
    | none =>
      have ho1v : fetchUpcomingSt c t1 locale country up1
          = ⟨(fetchUpcomingPure up1 t1).map (fun u => u.el),
             setCached cu1 t1 locale country "upcoming"
               ((fetchUpcomingPure up1 t1).map (fun u => u.el)), true⟩ := by
        simp [fetchUpcomingSt, hu1]
      have hlk : dictLookup (setCached cu1 t1 locale country "upcoming"
            ((fetchUpcomingPure up1 t1).map (fun u => u.el)))
          (cacheKey locale country "upcoming")
          = some ⟨t1, (fetchUpcomingPure up1 t1).map (fun u => u.el)⟩ :=
        dictLookup_insert_self _ _ _
      have hsecond : fetchUpcomingSt
          (setCached cu1 t1 locale country "upcoming"
            ((fetchUpcomingPure up1 t1).map (fun u => u.el))) t2 locale country up2
          = ⟨(fetchUpcomingPure up1 t1).map (fun u => u.el),
             setCached cu1 t1 locale country "upcoming"
               ((fetchUpcomingPure up1 t1).map (fun u => u.el)), false⟩ := by
        have := getCached_fresh
          (setCached cu1 t1 locale country "upcoming"
            ((fetchUpcomingPure up1 t1).map (fun u => u.el))) t2
          locale country "upcoming" ⟨t1, (fetchUpcomingPure up1 t1).map (fun u => u.el)⟩
          hlk (by show t2 - t1 ≤ 600; omega)
        simp [fetchUpcomingSt, this]
      refine ⟨?_, ?_, ?_, ?_⟩
      · rw [ho1v]
        simp only []
        rw [hsecond]
        simp
      · rw [ho1v]
        simp only []
        rw [hsecond]
        simp
      · rw [ho1v]
        simp only []
        exact fun _ => hlk
      · intro e he hf
        have := getCached_fresh c t1 locale country "upcoming" e he hf
        rw [this] at hu1
        simp at hu1
  exact ⟨freeCase.1, freeCase.2.1, freeCase.2.2.1, freeCase.2.2.2,
    upCase.1, upCase.2.1, upCase.2.2.1, upCase.2.2.2⟩

/-- C6 witness: starting from an empty cache, the first call issues the
network request and the second (600 s later) replays its result without one. -/
theorem cache_idempotent_fetch_witness :
    (fetchFreeGamesSt [] 0 "en-US" "US" []).network = true
    ∧ (fetchFreeGamesSt (fetchFreeGamesSt [] 0 "en-US" "US" []).cache 600 "en-US" "US"
        []).items = (fetchFreeGamesSt [] 0 "en-US" "US" []).items
    ∧ (fetchFreeGamesSt (fetchFreeGamesSt [] 0 "en-US" "US" []).cache 600 "en-US" "US"
        []).network = false :=
  have h := cache_idempotent_fetch [] 0 600 "en-US" "US" [] []
    (fetchFreeGamesSt [] 0 "en-US" "US" [])
    (fetchFreeGamesSt (fetchFreeGamesSt [] 0 "en-US" "US" []).cache 600 "en-US" "US" [])
    (fetchUpcomingSt [] 0 "en-US" "US" [])
    (fetchUpcomingSt (fetchUpcomingSt [] 0 "en-US" "US" []).cache 600 "en-US" "US" [])
    (by decide) (by decide) rfl rfl rfl rfl
  ⟨by decide, (h.2.1 (by decide)).1, (h.2.1 (by decide)).2.1⟩

/-! ## Claims C2 and C10 -/

theorem isActiveEl_eq_any (now : Int) (el : CatalogElement) :
    isActiveEl now el
      = (currentBlocks el).any (fun b => b.promotionalOffers.any (windowActiveB now)) := by
  unfold isActiveEl
  cases h : currentBlocks el with
  | nil => simp
  | cons b t => simp

theorem isActiveEl_iff (now : Int) (el : CatalogElement) :
    isActiveEl now el = true
      ↔ ∃ b ∈ currentBlocks el, ∃ w ∈ b.promotionalOffers, windowActiveB now w = true := by
  rw [isActiveEl_eq_any]
  simp [List.any_eq_true]

/-- C2: a catalog element appears in the current-free result exactly once iff
it carries at least one promotional window whose computed start bound is
absent or `≤ now` and whose computed end bound is absent or `> now`
(`windowActiveB`), regardless of its other windows; membership is also
characterised without the multiplicity hypothesis. -/
theorem free_now_exactly_once (els : List CatalogElement) (now : Int)
    (el : CatalogElement) (hcount : els.count el = 1) :
    ((freeNowFilter els now).count el = 1
      ↔ ∃ b ∈ currentBlocks el, ∃ w ∈ b.promotionalOffers, windowActiveB now w = true)
    ∧ (el ∈ freeNowFilter els now
      ↔ el ∈ els ∧ ∃ b ∈ currentBlocks el, ∃ w ∈ b.promotionalOffers,
          windowActiveB now w = true) := by
  constructor
  · rw [← isActiveEl_iff]
    unfold freeNowFilter
    rw [countFilter els el (isActiveEl now), hcount]
    constructor
    · intro h
      by_cases ha : isActiveEl now el = true
      · exact ha
      · rw [if_neg ha] at h
        exact absurd h (by norm_num)
    · intro h
      rw [if_pos h]
  · rw [← isActiveEl_iff]
    unfold freeNowFilter
    simp [List.mem_filter]

/-- C2 witness: an element with one inactive and one active window is listed
exactly once; one with only a future window is not listed. -/
theorem free_now_exactly_once_witness :
    (freeNowFilter
        [⟨some "Alpha", some "a", [], some ⟨[⟨[⟨some "2999-01-01T00:00:00Z", none⟩,
            ⟨none, some "2999-01-01T00:00:00Z"⟩]⟩], []⟩, none, [], none, none⟩] 0).count
        ⟨some "Alpha", some "a", [], some ⟨[⟨[⟨some "2999-01-01T00:00:00Z", none⟩,
            ⟨none, some "2999-01-01T00:00:00Z"⟩]⟩], []⟩, none, [], none, none⟩ = 1 :=
  (free_now_exactly_once
      [⟨some "Alpha", some "a", [], some ⟨[⟨[⟨some "2999-01-01T00:00:00Z", none⟩,
          ⟨none, some "2999-01-01T00:00:00Z"⟩]⟩], []⟩, none, [], none, none⟩] 0
      ⟨some "Alpha", some "a", [], some ⟨[⟨[⟨some "2999-01-01T00:00:00Z", none⟩,
          ⟨none, some "2999-01-01T00:00:00Z"⟩]⟩], []⟩, none, [], none, none⟩
      (by decide)).1.mpr (by decide)

/-- C10: if parsing either date string of a window raises, the handler leaves
both bounds absent, the window counts as active at every instant, and the
element is classified as currently free — the failure neither raises out of
the classifier nor excludes the element (the classifier is a total function). -/
theorem parse_failure_counts_free (els : List CatalogElement) (now : Int)
    (el : CatalogElement) (b : OfferBlock) (w : PromoWindow)
    (hel : el ∈ els) (hb : b ∈ currentBlocks el) (hw : w ∈ b.promotionalOffers)
    (hfail : parseBound w.startDate = none ∨ parseBound w.endDate = none) :
    windowBounds w = (none, none)
    ∧ windowActiveB now w = true
    ∧ el ∈ freeNowFilter els now := by
  have hbounds : windowBounds w = (none, none) := by
    unfold windowBounds
    rcases hfail with h | h
    · rw [h]
    · rw [h]
      cases parseBound w.startDate <;> rfl
  have hact : windowActiveB now w = true := by
    unfold windowActiveB
    rw [hbounds]
    rfl
  refine ⟨hbounds, hact, ?_⟩
  unfold freeNowFilter
  rw [List.mem_filter]
  exact ⟨hel, (isActiveEl_iff now el).mpr ⟨b, hb, w, hw, hact⟩⟩

/-- C10 witness: a window whose end date is garbage counts as active even
though its start is far in the future, and the element is listed. -/
theorem parse_failure_counts_free_witness :
    windowActiveB 0 ⟨some "2999-01-01T00:00:00Z", some "not-a-date"⟩ = true
    ∧ ⟨some "G", some "g", [], some ⟨[⟨[⟨some "2999-01-01T00:00:00Z", some "not-a-date"⟩]⟩],
        []⟩, none, [], none, none⟩ ∈ freeNowFilter
        [⟨some "G", some "g", [], some ⟨[⟨[⟨some "2999-01-01T00:00:00Z", some "not-a-date"⟩]⟩],
          []⟩, none, [], none, none⟩] 0 :=
  have h := parse_failure_counts_free
    [⟨some "G", some "g", [], some ⟨[⟨[⟨some "2999-01-01T00:00:00Z", some "not-a-date"⟩]⟩],
      []⟩, none, [], none, none⟩] 0
    ⟨some "G", some "g", [], some ⟨[⟨[⟨some "2999-01-01T00:00:00Z", some "not-a-date"⟩]⟩],
      []⟩, none, [], none, none⟩
    ⟨[⟨some "2999-01-01T00:00:00Z", some "not-a-date"⟩]⟩
    ⟨some "2999-01-01T00:00:00Z", some "not-a-date"⟩
    (by decide) (by decide) (by decide) (Or.inr (by decide))
  ⟨h.2.1, h.2.2⟩

/-! ## Claim C3 -/

theorem lexLe_refl (x : List Char) : lexLe x x = true := by
  induction x with
  | nil => rfl
  | cons c t ih => simp [lexLe, ih]

theorem lexLe_of_not_lexLe {x y : List Char} (h : ¬lexLe x y = true) : lexLe y x = true := by
  induction x generalizing y with
  | nil => exact absurd rfl h
  | cons c t ih =>
    cases y with
    | nil => rfl
    | cons d u =>
      by_cases hcd : c = d
      · subst hcd
        simp only [lexLe, if_pos rfl] at h ⊢
        exact ih h
      · simp only [lexLe, if_neg hcd, decide_eq_true_eq] at h
        have hne : d ≠ c := fun he => hcd he.symm
        simp only [lexLe, if_neg hne, decide_eq_true_eq]
        exact lt_of_le_of_ne (le_of_not_lt h) hne

theorem ne_of_not_lexLe {x y : List Char} (h : ¬lexLe x y = true) : y ≠ x := by
  intro he
  subst he
  exact h (lexLe_refl y)

theorem lexLe_trans {x y z : List Char} (h1 : lexLe x y = true) (h2 : lexLe y z = true) :
    lexLe x z = true := by
  induction x generalizing y z with
  | nil => rfl
  | cons c t ih =>
    cases y with
    | nil => simp [lexLe] at h1
    | cons d u =>
      cases z with
      | nil => simp [lexLe] at h2
      | cons e v =>
        by_cases hcd : c = d
        · subst hcd
          simp only [lexLe, if_pos rfl] at h1
          by_cases hde : c = e
          · subst hde
            simp only [lexLe, if_pos rfl] at h2 ⊢
            exact ih h1 h2
          · simp only [lexLe, if_neg hde, decide_eq_true_eq] at h2 ⊢
            exact h2
        · simp only [lexLe, if_neg hcd, decide_eq_true_eq] at h1
          by_cases hde : d = e
          · subst hde
            simp only [lexLe, if_neg hcd, decide_eq_true_eq]
            exact h1
          · simp only [lexLe, if_neg hde, decide_eq_true_eq] at h2
            have hce : c ≠ e := fun he => absurd (he ▸ h1) (lt_asymm h2)
            simp only [lexLe, if_neg hce, decide_eq_true_eq]
            exact lt_trans h1 h2

theorem strLeB_refl (a : String) : strLeB a a = true := lexLe_refl a.data

theorem strLeB_of_not_strLeB {a b : String} (h : ¬strLeB a b = true) : strLeB b a = true :=
  lexLe_of_not_lexLe h

theorem strLeB_trans {a b c : String} (h1 : strLeB a b = true) (h2 : strLeB b c = true) :
    strLeB a c = true := lexLe_trans h1 h2

theorem ne_of_not_strLeB {a b : String} (h : ¬strLeB a b = true) : b ≠ a := by
  intro he
  exact absurd (he ▸ strLeB_refl b) h

theorem mem_insertByKey {α : Type} (key : α → String) (a x : α) (l : List α) :
    x ∈ insertByKey key a l ↔ x = a ∨ x ∈ l := by
  induction l with
  | nil => simp [insertByKey]
  | cons b t ih =>
    by_cases h : strLeB (key a) (key b) = true
    · simp [insertByKey, h]
    · simp only [insertByKey, if_neg h, List.mem_cons, ih]
      tauto

theorem pairwise_insertByKey {α : Type} (key : α → String) (a : α) (l : List α)
    (h : l.Pairwise (fun x y => strLeB (key x) (key y) = true)) :
    (insertByKey key a l).Pairwise (fun x y => strLeB (key x) (key y) = true) := by
  induction l with
  | nil => simp [insertByKey]
  | cons b t ih =>
    by_cases hab : strLeB (key a) (key b) = true
    · simp only [insertByKey, if_pos hab]
      refine List.Pairwise.cons ?_ h
      intro x hx
      rw [List.mem_cons] at hx
      rcases hx with rfl | hx
      · exact hab
      · exact strLeB_trans hab (List.rel_of_pairwise_cons h hx)
    · simp only [insertByKey, if_neg hab]
      refine List.Pairwise.cons ?_ (ih (List.Pairwise.of_cons h))
      intro x hx
      rw [mem_insertByKey] at hx
      rcases hx with rfl | hx
      · exact strLeB_of_not_strLeB hab
      · exact List.rel_of_pairwise_cons h hx

theorem perm_insertByKey {α : Type} (key : α → String) (a : α) (l : List α) :
    (insertByKey key a l).Perm (a :: l) := by
  induction l with
  | nil => simp [insertByKey]
  | cons b t ih =>
    by_cases h : strLeB (key a) (key b) = true
    · simp [insertByKey, h]
    · simp only [insertByKey, if_neg h]
      exact (ih.cons b).trans (List.Perm.swap a b t)

theorem sortByKey_pairwise {α : Type} (key : α → String) (l : List α) :
    (sortByKey key l).Pairwise (fun x y => strLeB (key x) (key y) = true) := by
  induction l with
  | nil => simp [sortByKey]
  | cons a t ih => exact pairwise_insertByKey key a _ ih

theorem sortByKey_perm {α : Type} (key : α → String) (l : List α) :
    (sortByKey key l).Perm l := by
  induction l with
  | nil => simp [sortByKey]
  | cons a t ih => exact (perm_insertByKey key a _).trans (ih.cons a)

theorem filter_insertByKey {α : Type} (key : α → String) (k : String) (a : α) (l : List α) :
    (insertByKey key a l).filter (fun x => key x = k)
      = if key a = k then a :: l.filter (fun x => key x = k)
        else l.filter (fun x => key x = k) := by
  induction l with
  | nil =>
    by_cases hak : key a = k
    · simp [insertByKey, List.filter_cons, hak]
    · simp [insertByKey, List.filter_cons, hak]
  | cons b t ih =>
    by_cases hab : strLeB (key a) (key b) = true
    · simp only [insertByKey, if_pos hab]
      by_cases hak : key a = k
      · simp [List.filter_cons, hak]
      · simp [List.filter_cons, hak]
    · have hbka : key b ≠ key a := ne_of_not_strLeB hab
      simp only [insertByKey, if_neg hab, List.filter_cons, ih]
      by_cases hak : key a = k
      · have hbk : ¬(key b = k) := fun he => hbka (he.trans hak.symm)
        simp [hak, hbk]
      · by_cases hbk : key b = k
        · simp [hak, hbk]
        · simp [hak, hbk]

/-- Stability: sorting preserves the relative order of entries sharing one
key value. -/
theorem sortByKey_stable {α : Type} (key : α → String) (k : String) (l : List α) :
    (sortByKey key l).filter (fun x => key x = k) = l.filter (fun x => key x = k) := by
  induction l with
  | nil => rfl
  | cons a t ih =>
    simp only [sortByKey, filter_insertByKey, ih, List.filter_cons]
    by_cases hak : key a = k
    · simp [hak]
    · simp [hak]

theorem annotateUpcoming_isSome (els : List CatalogElement) (now : Int)
    (u : UpcomingEl) (hu : u ∈ annotateUpcoming els now) : u.upcomingStart.isSome := by
  unfold annotateUpcoming at hu
  rw [List.mem_filterMap] at hu
  obtain ⟨el, _, hf⟩ := hu
  by_cases he : (upcomingBlocks el).isEmpty
  · rw [if_pos he] at hf
    exact absurd hf (by simp)
  · rw [if_neg he] at hf
    cases hs : upStartOf now el with
    | none => rw [hs] at hf; exact absurd hf (by simp)
    | some dt =>
      rw [hs] at hf
      cases hf
      rfl

/-- Upcoming-window element with the sole start `2024-12-31T23:00:00+00:00`
(instant 63897721200 s). -/
def cexA : CatalogElement :=
  ⟨some "A", some "a", [], some ⟨[], [⟨[⟨some "2024-12-31T23:00:00+00:00", none⟩]⟩]⟩,
    none, [], none, none⟩

/-- Upcoming-window element with the sole start `2025-01-01T01:00:00+05:00` —
the *earlier* instant 63897710400 s, but the lexicographically larger
ISO-8601 text. -/
def cexB : CatalogElement :=
  ⟨some "B", some "b", [], some ⟨[], [⟨[⟨some "2025-01-01T01:00:00+05:00", none⟩]⟩]⟩,
    none, [], none, none⟩

/-- An instant before both starts (2024-01-01 UTC). -/
def cexNow : Int := instantOf ⟨2024, 1, 1, 0, 0, 0, 0⟩

/-- The instant of an optional datetime (0 when absent). -/
def optInstant : Option PyDateTime → Int
  | some dt => instantOf dt
  | none => 0

/-- C3 counterexample: the result keeps `cexA` before `cexB` (its ISO string
key is smaller) although `cexB`'s soonest strictly-future start is the earlier
instant, so the output is **not** sorted non-decreasingly by `soonestStart` as
an instant. -/
theorem upcoming_sort_counterexample :
    (fetchUpcomingPure [cexA, cexB] cexNow).map (fun u => u.el) = [cexA, cexB]
    ∧ optInstant (upStartOf cexNow cexB) < optInstant (upStartOf cexNow cexA)
    ∧ (upStartOf cexNow cexA).isSome ∧ (upStartOf cexNow cexB).isSome
    ∧ ¬((fetchUpcomingPure [cexA, cexB] cexNow).Pairwise
        (fun a b => optInstant (upStartOf cexNow a.el) ≤ optInstant (upStartOf cexNow b.el))) := by
  decide

/-- C3 (amended): the result of the upcoming classification is sorted
non-decreasingly by the ISO-8601 *string* rendering of `soonestStart` (the
empty-string sentinel standing in for an absent key), under code-point
comparison as Python's `list.sort` performs it; ties keep the original
element order (the stable-sort filter property); the output is a permutation
of the annotated selection; and every returned element carries a resolvable
`soonestStart` annotation.  For timestamps sharing one UTC offset this string
order coincides with instant order, but not for mixed offsets
(`upcoming_sort_counterexample`). -/
theorem upcoming_sorted_by_key (els : List CatalogElement) (now : Int) (k : String)
    (u : UpcomingEl) (hu : u ∈ fetchUpcomingPure els now) :
    (fetchUpcomingPure els now).Pairwise (fun a b => strLeB (upKey a) (upKey b) = true)
    ∧ (fetchUpcomingPure els now).filter (fun x => upKey x = k)
        = (annotateUpcoming els now).filter (fun x => upKey x = k)
    ∧ (fetchUpcomingPure els now).Perm (annotateUpcoming els now)
    ∧ u.upcomingStart.isSome := by
  refine ⟨sortByKey_pairwise upKey _, sortByKey_stable upKey k _, sortByKey_perm upKey _, ?_⟩
  exact annotateUpcoming_isSome els now u ((sortByKey_perm upKey _).subset hu)

/-- C3 (amended) witness: on the two-element catalog the sorted key order and
the resolvable-start guarantee hold concretely. -/
theorem upcoming_sorted_by_key_witness :
    ((fetchUpcomingPure [cexA, cexB] cexNow).Pairwise
      (fun a b => strLeB (upKey a) (upKey b) = true))
    ∧ (⟨cexA, some "2024-12-31T23:00:00+00:00"⟩ : UpcomingEl).upcomingStart.isSome :=
  have h := upcoming_sorted_by_key [cexA, cexB] cexNow ""
    ⟨cexA, some "2024-12-31T23:00:00+00:00"⟩ (by decide)
  ⟨h.1, h.2.2.2⟩

/-! ## Claims C4 and C9 -/

theorem userSubsOf_subscribe (d : BotDoc) (chatId : Int) (offerId title : String)
    (pageSlug : Option String) :
    userSubsOf chatId (subscribeToOffer chatId offerId title pageSlug d)
      = dictInsert (userSubsOf chatId d) offerId
          ⟨title, (match pageSlug with | some s => s | none => ""), false⟩ := by
  unfold subscribeToOffer userSubsOf
  rw [dictLookup_insert_self]

theorem subscribe_idem (d : BotDoc) (chatId : Int) (offerId title : String)
    (pageSlug : Option String) :
    subscribeToOffer chatId offerId title pageSlug
        (subscribeToOffer chatId offerId title pageSlug d)
      = subscribeToOffer chatId offerId title pageSlug d := by
  unfold subscribeToOffer
  cases d with
  | mk chats users subs =>
    simp only [userSubsOf, dictLookup_insert_self, dictInsert_dictInsert_same]

/-- C4: `subscribeToOffer` is an upsert that always stores `notified = false`:
re-subscribing (after an unsubscribe or for a never-notified offer) writes the
identical record, immediate double subscription leaves the document exactly as
a single one, and for an existing still-watching record (`notified = false` —
the *active* tracking state, since re-subscribing an already-notified record
deliberately starts a fresh cycle) the stored `notified` flag is unchanged. -/
theorem subscribe_always_unnotified (d : BotDoc) (chatId : Int) (offerId title : String)
    (pageSlug : Option String) :
    dictLookup (userSubsOf chatId (subscribeToOffer chatId offerId title pageSlug d)) offerId
      = some ⟨title, (match pageSlug with | some s => s | none => ""), false⟩
    ∧ subscribeToOffer chatId offerId title pageSlug
        (subscribeToOffer chatId offerId title pageSlug d)
      = subscribeToOffer chatId offerId title pageSlug d
    ∧ (∀ m, dictLookup (userSubsOf chatId d) offerId = some m → m.notified = false →
        (dictLookup (userSubsOf chatId (subscribeToOffer chatId offerId title pageSlug d))
          offerId).map OfferSubRec.notified = some m.notified) := by
  refine ⟨?_, subscribe_idem d chatId offerId title pageSlug, ?_⟩
  · rw [userSubsOf_subscribe, dictLookup_insert_self]
  · intro m _ hm
    rw [userSubsOf_subscribe, dictLookup_insert_self]
    simp [hm]

/-- C4 witness: subscribing over an empty store, then re-subscribing, stores
`notified = false` exactly once. -/
theorem subscribe_always_unnotified_witness :
    dictLookup (userSubsOf 7 (subscribeToOffer 7 "off1" "Game" (some "slug") ⟨[], [], []⟩))
        "off1" = some ⟨"Game", "slug", false⟩
    ∧ subscribeToOffer 7 "off1" "Game" (some "slug")
        (subscribeToOffer 7 "off1" "Game" (some "slug") ⟨[], [], []⟩)
      = subscribeToOffer 7 "off1" "Game" (some "slug") ⟨[], [], []⟩ :=
  have h := subscribe_always_unnotified ⟨[], [], []⟩ 7 "off1" "Game" (some "slug")
  ⟨h.1, h.2.1⟩

theorem dictCountKey_eq_zero {V : Type} (l : List (String × V)) (k : String)
    (h : k ∉ l.map Prod.fst) : dictCountKey l k = 0 := by
  induction l with
  | nil => rfl
  | cons p t ih =>
    simp only [List.map_cons, List.mem_cons] at h
    push_neg at h
    have hp : ¬(p.1 = k) := fun he => h.1 he.symm
    simp only [dictCountKey, List.filter_cons, hp]
    simpa [dictCountKey] using ih h.2

theorem dictCountKey_insert {V : Type} (l : List (String × V)) (k : String) (v : V)
    (hnd : (l.map Prod.fst).Nodup) : dictCountKey (dictInsert l k v) k = 1 := by
  induction l with
  | nil => simp [dictInsert, dictCountKey, List.filter_cons]
  | cons p t ih =>
    obtain ⟨k1, v1⟩ := p
    simp only [List.map_cons, List.nodup_cons] at hnd
    by_cases h : k1 = k
    · subst h
      simp only [dictInsert, if_pos rfl, dictCountKey, List.filter_cons, decide_True,
        if_true]
      have := dictCountKey_eq_zero t k1 hnd.1
      simpa [dictCountKey] using this
    · simp only [dictInsert, if_neg h, dictCountKey, List.filter_cons]
      have hne : ¬(k1 = k) := h
      simp only [hne, decide_False]
      simpa [dictCountKey] using ih hnd.2

/-- C9: subscribe-then-query answers true; unsubscribe-then-query answers
false on any document; double subscription raises nothing (the operation is a
total function) and leaves the document as after a single subscription, with
exactly one record for the (user, offer) pair; unsubscribing an absent record
is a no-op on the persisted document. -/
theorem subscription_roundtrip (d d2 : BotDoc) (chatId : Int) (offerId title : String)
    (pageSlug : Option String)
    (hnd : ((userSubsOf chatId d).map Prod.fst).Nodup) :
    isSubscribedToOffer chatId offerId (subscribeToOffer chatId offerId title pageSlug d) = true
    ∧ isSubscribedToOffer chatId offerId (unsubscribeFromOffer chatId offerId d2) = false
    ∧ subscribeToOffer chatId offerId title pageSlug
        (subscribeToOffer chatId offerId title pageSlug d)
      = subscribeToOffer chatId offerId title pageSlug d
    ∧ dictCountKey (userSubsOf chatId
        (subscribeToOffer chatId offerId title pageSlug
          (subscribeToOffer chatId offerId title pageSlug d))) offerId = 1
    ∧ (isSubscribedToOffer chatId offerId d = false → unsubscribeFromOffer chatId offerId d = d) := by
  refine ⟨?_, ?_, subscribe_idem d chatId offerId title pageSlug, ?_, ?_⟩
  · unfold isSubscribedToOffer
    rw [userSubsOf_subscribe, dictHasKey, dictLookup_insert_self]
    rfl
  · unfold unsubscribeFromOffer
    by_cases h : dictHasKey (userSubsOf chatId d2) offerId = true
    · rw [if_pos h]
      unfold isSubscribedToOffer userSubsOf
      rw [dictLookup_insert_self]
      simp [dictHasKey, dictLookup_erase_self]
    · rw [if_neg h]
      unfold isSubscribedToOffer
      simpa using h
  · rw [subscribe_idem d chatId offerId title pageSlug, userSubsOf_subscribe]
    exact dictCountKey_insert _ _ _ hnd
  · intro h
    unfold unsubscribeFromOffer
    rw [if_neg]
    simpa [isSubscribedToOffer] using h

/-- C9 witness: the four operations behave as stated on a concrete store. -/
theorem subscription_roundtrip_witness :
    isSubscribedToOffer 5 "o" (subscribeToOffer 5 "o" "T" none ⟨[], [], []⟩) = true
    ∧ isSubscribedToOffer 5 "o" (unsubscribeFromOffer 5 "o"
        (subscribeToOffer 5 "o" "T" none ⟨[], [], []⟩)) = false
    ∧ dictCountKey (userSubsOf 5
        (subscribeToOffer 5 "o" "T" none (subscribeToOffer 5 "o" "T" none ⟨[], [], []⟩))) "o" = 1 :=
  have h := subscription_roundtrip ⟨[], [], []⟩
    (subscribeToOffer 5 "o" "T" none ⟨[], [], []⟩) 5 "o" "T" none (by decide)
  ⟨h.1, h.2.1, h.2.2.2.1⟩

/-! ## Claim C1 -/

theorem stepSub_notified_fixed (cur : List CatalogElement) (dv : String → Bool)
    (p : String × OfferSubRec) (h : p.2.notified = true) : stepSub cur dv p = p := by
  unfold stepSub
  rw [if_neg]
  intro hc
  exact hc.2.2.1 h

theorem runTicks_keeps_notified (ticks : List (List CatalogElement × (String → Bool)))
    (subs : List (String × OfferSubRec)) (p : String × OfferSubRec)
    (hmem : p ∈ subs) (h : p.2.notified = true) : p ∈ runTicks ticks subs := by
  induction ticks generalizing subs with
  | nil => exact hmem
  | cons t ts ih =>
    have : p ∈ tickUser t.1 t.2 subs := by
      have := List.mem_map_of_mem (stepSub t.1 t.2) hmem
      rwa [stepSub_notified_fixed t.1 t.2 p h] at this
    exact ih (tickUser t.1 t.2 subs) this

/-- C1: a watching record flips to notified in one tick exactly when its offer
id is in the free set and delivery succeeds; a failed (or inapplicable)
delivery leaves the record untouched, so it is retried; an already-notified
record is never re-sent and never modified, and it survives any sequence of
later ticks unchanged — even ones where the offer leaves and re-enters the
free set. -/
theorem notified_flip_iff_delivered (cur : List CatalogElement) (dv : String → Bool)
    (subs : List (String × OfferSubRec))
    (ticks : List (List CatalogElement × (String → Bool)))
    (p : String × OfferSubRec) :
    (p.2.notified = false →
      ((stepSub cur dv p).2.notified = true ↔ p.1 ∈ freeIdsOf cur ∧ dv p.1 = true))
    ∧ (p.2.notified = false → (stepSub cur dv p).2.notified = false → stepSub cur dv p = p)
    ∧ (p.2.notified = true → stepSub cur dv p = p)
    ∧ (p ∈ subs → p.2.notified = true → p ∈ runTicks ticks subs) := by
  refine ⟨?_, ?_, stepSub_notified_fixed cur dv p, runTicks_keeps_notified ticks subs p⟩
  · intro hw
    by_cases hc : ¬(freeIdsOf cur).isEmpty ∧ p.1 ∈ freeIdsOf cur ∧ ¬p.2.notified ∧ dv p.1
    · unfold stepSub
      rw [if_pos hc]
      simp only [true_iff]
      exact ⟨hc.2.1, hc.2.2.2⟩
    · unfold stepSub
      rw [if_neg hc]
      rw [hw]
      simp only [Bool.false_eq_true, false_iff]
      intro ⟨hmem, hdv⟩
      exact hc ⟨by simp [List.isEmpty_iff]; exact List.ne_nil_of_mem hmem,
        hmem, by simp [hw], hdv⟩
  · intro hw hres
    by_cases hc : ¬(freeIdsOf cur).isEmpty ∧ p.1 ∈ freeIdsOf cur ∧ ¬p.2.notified ∧ dv p.1
    · unfold stepSub at hres
      rw [if_pos hc] at hres
      simp at hres
    · unfold stepSub
      rw [if_neg hc]

/-- C1 witness: with the offer free and delivery succeeding, the watching
record flips; an already-notified record survives two further ticks. -/
theorem notified_flip_iff_delivered_witness :
    (stepSub [⟨some "G", some "g", [], none, none, [], none, none⟩] (fun _ => true)
        ("g", ⟨"G", "", false⟩)).2.notified = true
    ∧ ("h", (⟨"H", "", true⟩ : OfferSubRec)) ∈ runTicks
        [([], fun _ => true), ([⟨some "H", some "h", [], none, none, [], none, none⟩],
          fun _ => true)]
        [("h", ⟨"H", "", true⟩)] :=
  have h := notified_flip_iff_delivered
    [⟨some "G", some "g", [], none, none, [], none, none⟩] (fun _ => true)
    [("h", ⟨"H", "", true⟩)]
    [([], fun _ => true), ([⟨some "H", some "h", [], none, none, [], none, none⟩],
      fun _ => true)]
    ("g", ⟨"G", "", false⟩)
  have h2 := notified_flip_iff_delivered
    [⟨some "G", some "g", [], none, none, [], none, none⟩] (fun _ => true)
    [("h", ⟨"H", "", true⟩)]
    [([], fun _ => true), ([⟨some "H", some "h", [], none, none, [], none, none⟩],
      fun _ => true)]
    ("h", ⟨"H", "", true⟩)
  ⟨(h.1 rfl).mpr ⟨by decide, rfl⟩, h2.2.2.2 (by decide) rfl⟩

/-! ## Claim C7 -/

theorem merge2_none_right (a : Found) : merge2 a (none, none) = a := by
  obtain ⟨d, y⟩ := a
  cases d <;> cases y <;> rfl

theorem merge2_none_left (a : Found) : merge2 (none, none) a = a := by
  obtain ⟨d, y⟩ := a
  rfl

theorem merge2_assoc (a b c : Found) : merge2 (merge2 a b) c = merge2 a (merge2 b c) := by
  obtain ⟨d, y⟩ := a
  cases d <;> cases y <;> rfl

theorem scanItems_acc (l : List Json) (acc : Found) :
    scanItems acc l = merge2 acc (scanItems (none, none) l) := by
  induction l generalizing acc with
  | nil => rw [scanItems, scanItems, merge2_none_right]
  | cons v t ih =>
    rw [scanItems, scanItems, ih (merge2 acc (scanJson v)),
      ih (merge2 (none, none) (scanJson v)), merge2_none_left, merge2_assoc]

theorem scanJson_arr_cons (x : Json) (xs : List Json) :
    scanJson (.arr (x :: xs)) = merge2 (scanJson x) (scanJson (.arr xs)) := by
  rw [scanJson, scanJson, scanItems, scanItems_acc, merge2_none_left]

/-- Componentwise view of `merge2`. -/
theorem merge2_fst (a b : Found) : (merge2 a b).1 = (a.1 <|> b.1) := rfl

theorem merge2_snd (a b : Found) : (merge2 a b).2 = (a.2 <|> b.2) := rfl

/-- C7: during the scan, the first match of each kind wins and is never
overwritten by later siblings, while the walk continues past a found kind so
the other kind can still be filled in; on the scenario document
`{"modules": [{"youTubeUrl": "https://youtu.be/abc123"}]}` the resolver
returns `(absent, "https://youtu.be/abc123")`.  (Termination on every finite
tree-shaped document holds by construction: `scanJson` is a total structural
recursion.) -/
theorem scan_first_match_wins (x : Json) (xs : List Json) (u : String) :
    ((scanJson x).2 = some u → (scanJson (.arr (x :: xs))).2 = some u)
    ∧ ((scanJson x).2 = none → (scanJson (.arr (x :: xs))).2 = (scanJson (.arr xs)).2)
    ∧ ((scanJson x).1 = some u → (scanJson (.arr (x :: xs))).1 = some u)
    ∧ ((scanJson x).1 = none → (scanJson (.arr (x :: xs))).1 = (scanJson (.arr xs)).1)
    ∧ resolveTrailerDoc scenarioDoc = (none, some "https://youtu.be/abc123") := by
  rw [scanJson_arr_cons]
  refine ⟨?_, ?_, ?_, ?_, by decide⟩
  · intro h
    rw [merge2_snd, h]
    rfl
  · intro h
    rw [merge2_snd, h]
    rfl
  · intro h
    rw [merge2_fst, h]
    rfl
  · intro h
    rw [merge2_fst, h]
    rfl

/-- C7 witness: the first direct-video candidate in a module list wins over a
later one, and the YouTube slot is still filled by a later sibling. -/
theorem scan_first_match_wins_witness :
    (scanJson (.arr [Json.str "https://cdn/x.mp4", Json.str "https://cdn/y.mp4",
        Json.str "https://youtu.be/v"])).1 = some "https://cdn/x.mp4"
    ∧ (scanJson (.arr [Json.str "https://cdn/x.mp4", Json.str "https://cdn/y.mp4",
        Json.str "https://youtu.be/v"])).2 = some "https://youtu.be/v" :=
  have h := scan_first_match_wins (Json.str "https://cdn/x.mp4")
    [Json.str "https://cdn/y.mp4", Json.str "https://youtu.be/v"] "https://cdn/x.mp4"
  have h2 := scan_first_match_wins (Json.str "https://cdn/x.mp4")
    [Json.str "https://cdn/y.mp4", Json.str "https://youtu.be/v"] "x"
  ⟨h.2.2.1 (by decide), (h2.2.1 (by decide)).trans (by decide)⟩

/-! ## Claim C8 -/

/-- C8: `buildStoreUrl` resolves by the priority (a) first `producthome`
mapping with non-empty slug — winning in particular over any `productSlug` —
(b) first mapping with non-empty slug, (c) first offer-mapping with non-empty
slug, (d) `productSlug`, (e) `urlSlug`, (f) the fixed storefront root; and a
slug (without leading slashes) beginning with `p/`, `bundles/` or `store/` is
used as-is while any other is prefixed with `p/`. -/
theorem store_url_priority (el : CatalogElement) (locale slug : String) :
    (∀ m, (nsMappings el).find? isProductHomeMapping = some m →
        buildStoreUrl el locale = slugToUrl (mappingSlug m) locale)
    ∧ ((nsMappings el).find? isProductHomeMapping = none →
        ∀ m, (nsMappings el).find? hasPageSlug = some m →
          buildStoreUrl el locale = slugToUrl (mappingSlug m) locale)
    ∧ ((nsMappings el).find? isProductHomeMapping = none →
        (nsMappings el).find? hasPageSlug = none →
        ∀ m, el.offerMappings.find? hasPageSlug = some m →
          buildStoreUrl el locale = slugToUrl (mappingSlug m) locale)
    ∧ ((nsMappings el).find? isProductHomeMapping = none →
        (nsMappings el).find? hasPageSlug = none →
        el.offerMappings.find? hasPageSlug = none →
        ∀ s, el.productSlug = some s → s ≠ "" →
          buildStoreUrl el locale = slugToUrl s locale)
    ∧ ((nsMappings el).find? isProductHomeMapping = none →
        (nsMappings el).find? hasPageSlug = none →
        el.offerMappings.find? hasPageSlug = none →
        optTruthy el.productSlug = false →
        ∀ s, el.urlSlug = some s → s ≠ "" →
          buildStoreUrl el locale = slugToUrl s locale)
    ∧ ((nsMappings el).find? isProductHomeMapping = none →
        (nsMappings el).find? hasPageSlug = none →
        el.offerMappings.find? hasPageSlug = none →
        optTruthy el.productSlug = false →
        optTruthy el.urlSlug = false →
        buildStoreUrl el locale = "https://store.epicgames.com/")
    ∧ (pyLstripSlash slug = slug →
        ((strStarts "p/" slug || strStarts "bundles/" slug || strStarts "store/" slug) = true →
          slugToUrl slug locale = "https://store.epicgames.com/" ++ locale ++ "/" ++ slug)
        ∧ ((strStarts "p/" slug || strStarts "bundles/" slug || strStarts "store/" slug) = false →
          slugToUrl slug locale = "https://store.epicgames.com/" ++ locale ++ "/p/" ++ slug)) := by
  refine ⟨?_, ?_, ?_, ?_, ?_, ?_, ?_⟩
  · intro m hm
    unfold buildStoreUrl
    rw [hm]
  · intro h1 m hm
    unfold buildStoreUrl
    rw [h1, hm]
  · intro h1 h2 m hm
    unfold buildStoreUrl
    rw [h1, h2, hm]
  · intro h1 h2 h3 s hs hne
    unfold buildStoreUrl
    rw [h1, h2, h3, hs]
    simp only [optTruthy]
    rw [if_pos (by simpa using hne)]
  · intro h1 h2 h3 hps s hs hne
    unfold buildStoreUrl
    rw [h1, h2, h3, hs]
    rw [if_neg (by simp [hps]),
      if_pos (show optTruthy (some s) = true by simpa [optTruthy] using hne)]
  · intro h1 h2 h3 hps hus
    unfold buildStoreUrl
    rw [h1, h2, h3]
    rw [if_neg (by simp [hps]), if_neg (by simp [hus])]
  · intro hls
    constructor
    · intro hpref
      unfold slugToUrl
      rw [hls, if_pos hpref]
    · intro hpref
      unfold slugToUrl
      rw [hls, if_neg (by simp [hpref])]

/-- C8 witness: an element carrying both a `productHome` mapping (slug
`alpha`) and a `productSlug` resolves through the mapping, with the `p/`
prefix added; a path-qualified slug is kept as-is. -/
theorem store_url_priority_witness :
    buildStoreUrl ⟨some "T", some "t", [], none,
        some ⟨[⟨some "productHome", some "alpha"⟩]⟩, [], some "beta", none⟩ "en-US"
      = "https://store.epicgames.com/en-US/p/alpha"
    ∧ slugToUrl "bundles/pack" "en-US" = "https://store.epicgames.com/en-US/bundles/pack" :=
  have h := store_url_priority ⟨some "T", some "t", [], none,
    some ⟨[⟨some "productHome", some "alpha"⟩]⟩, [], some "beta", none⟩ "en-US" "bundles/pack"
  ⟨(h.1 ⟨some "productHome", some "alpha"⟩ (by decide)).trans (by decide),
    ((h.2.2.2.2.2.2 (by decide)).1 (by decide))⟩
